import Mathlib

/-!
Verification development for the XP/Leveling engine of the SCDB bot
(`src/bot.py`).  The Python code is shallowly embedded: the JSON ledger
becomes nested association lists keyed by strings (Python dicts preserve
insertion order, which the association-list operations below reproduce:
assigning an existing key keeps its position, a new key is appended at the
end), machine integers become `Nat`/`Int`, and timestamps become `Int`
seconds.  The leveling formula `int(math.sqrt(xp / 100)) + 1` appears in
two forms: `calculate_level` is its exact integer value
(`Nat.sqrt (xp / 100) + 1`), which the handlers use for the stored level,
and `calculate_level_fp` is a bit-exact model of the program's actual
IEEE-754 double-precision evaluation (correctly rounded `int / int`
division, correctly rounded square root, truncation), built from integer
arithmetic only.  The two agree on small inputs but diverge once `xp`
reaches the magnitude where doubles can no longer represent every
integer-scaled value exactly (around `7 * 10^15`); claim C1 is settled
against the double model.  Event-handler presentation (embeds, member-name
fetching, level-up announcements) is outside the embedded core; each
handler is modelled by its effect on the persisted ledger and the
in-memory tracking maps.
-/

namespace SCDB

/-! ### Association lists (Python `dict` with insertion order) -/

/-- Lookup in an insertion-ordered association list (`d[k]` / `k in d`). -/
def alLookup {α : Type} (l : List (String × α)) (k : String) : Option α :=
  match l with
  | [] => none
  | (k₀, v₀) :: t => if k₀ = k then some v₀ else alLookup t k

/-- Assignment `d[k] = v`: an existing key keeps its position, a new key is
appended at the end, exactly as a Python dict behaves. -/
def alSet {α : Type} (l : List (String × α)) (k : String) (v : α) :
    List (String × α) :=
  match l with
  | [] => [(k, v)]
  | (k₀, v₀) :: t => if k₀ = k then (k, v) :: t else (k₀, v₀) :: alSet t k v

/-- In-place update of the value stored at `k` (no-op if `k` is absent). -/
def alModify {α : Type} (l : List (String × α)) (k : String) (f : α → α) :
    List (String × α) :=
  match l with
  | [] => []
  | (k₀, v₀) :: t => if k₀ = k then (k₀, f v₀) :: t else (k₀, v₀) :: alModify t k f

/-- Deletion `del d[k]` (no-op if `k` is absent). -/
def alErase {α : Type} (l : List (String × α)) (k : String) :
    List (String × α) :=
  match l with
  | [] => []
  | (k₀, v₀) :: t => if k₀ = k then t else (k₀, v₀) :: alErase t k

theorem alLookup_alSet {α : Type} (l : List (String × α)) (k k₁ : String) (v : α) :
    alLookup (alSet l k v) k₁ = if k = k₁ then some v else alLookup l k₁ := by
  induction l with
  | nil => by_cases h : k = k₁ <;> simp [alSet, alLookup, h]
  | cons p t ih =>
    obtain ⟨k₀, v₀⟩ := p
    by_cases h₀ : k₀ = k
    · subst h₀
      by_cases h : k₀ = k₁ <;> simp [alSet, alLookup, h]
    · by_cases h : k₀ = k₁ <;> by_cases h₁ : k = k₁ <;>
        simp_all [alSet, alLookup]

theorem alLookup_alModify {α : Type} (l : List (String × α)) (k k₁ : String)
    (f : α → α) :
    alLookup (alModify l k f) k₁ =
      if k = k₁ then (alLookup l k).map f else alLookup l k₁ := by
  induction l with
  | nil => by_cases h : k = k₁ <;> simp [alModify, alLookup, h]
  | cons p t ih =>
    obtain ⟨k₀, v₀⟩ := p
    by_cases h₀ : k₀ = k
    · subst h₀
      by_cases h : k₀ = k₁ <;> simp [alModify, alLookup, h]
    · by_cases h : k₀ = k₁ <;> by_cases h₁ : k = k₁ <;>
        simp_all [alModify, alLookup]

/-! ### Data model (§3 of the spec, `get_user_data` in the source) -/

/-- One entry of a record's `vc_partners` map. -/
structure PartnerData where
  username : String
  seconds : Nat
  deriving Repr, DecidableEq

/-- A persisted per-(guild, user) record, all fields present
(every record this code writes has all of them). -/
structure UserRecord where
  username : String
  xp : Nat
  level : Nat
  messages : Nat
  reactions : Nat
  vc_seconds : Nat
  vc_partners : List (String × PartnerData)
  longest_session : Nat
  longest_session_date : Option String
  deriving Repr, DecidableEq

abbrev GuildData := List (String × UserRecord)

abbrev Ledger := List (String × GuildData)

/-- Runtime configuration (`config.json`, §6 of the spec). -/
structure Config where
  xp_per_message : Nat
  xp_per_reaction : Nat
  xp_per_minute_vc : Nat
  message_cooldown : Nat
  deriving Repr, DecidableEq

/-- `DEFAULT_CONFIG` from the source. -/
def DEFAULT_CONFIG : Config :=
  { xp_per_message := 5
    xp_per_reaction := 5
    xp_per_minute_vc := 2
    message_cooldown := 10 }

/-! ### Leveling functions -/

/-- `calculate_level`: the exact integer value of
`int(math.sqrt(xp / 100)) + 1`.  The program evaluates the formula in
double precision; the bit-exact double model is `calculate_level_fp`
below, and the two diverge for very large `xp` (see claim C1). -/
def calculate_level (xp : Nat) : Nat :=
  Nat.sqrt (xp / 100) + 1

/-- `xp_for_next_level`: `(level ** 2) * 100`. -/
def xp_for_next_level (level : Nat) : Nat :=
  level ^ 2 * 100

/-! ### Bit-exact IEEE-754 binary64 model of the leveling formula

Python evaluates `xp / 100` as correctly rounded true division of the two
integers, `math.sqrt` as the correctly rounded double square root, and
`int(...)` as truncation.  A nonnegative finite double is represented
below as a significand–exponent pair `(m, e)` with value `m * 2^e`,
normalized so that `2^52 ≤ m < 2^53` (every nonzero value arising here is
normal).  Rounding is round-to-nearest, ties to even, implemented with
exact integer arithmetic; the recursions take explicit fuel so that every
evaluation reduces inside the kernel. -/

def bitLenGo : Nat → Nat → Nat
  | 0, _ => 0
  | fuel + 1, n => if n = 0 then 0 else bitLenGo fuel (n / 2) + 1

/-- Number of binary digits of `n` (0 for `n = 0`); exact for `n < 2^130`,
far beyond every value used here. -/
def bitLen (n : Nat) : Nat :=
  bitLenGo 130 n

def isqrtGo (n : Nat) : Nat → Nat → Nat
  | 0, acc => acc
  | k + 1, acc =>
    let c := acc + 2 ^ k
    if c * c ≤ n then isqrtGo n k c else isqrtGo n k acc

/-- Floor integer square root by binary search over bits; exact for
`n < 2^128`. -/
def isqrt (n : Nat) : Nat :=
  isqrtGo n 64 0

/-- The Euclidean division of `num / den` scaled by `2^(-e)`:
returns the quotient, the remainder and the divisor used. -/
def scaledDivMod (num den : Nat) (e : Int) : Nat × Nat × Nat :=
  if e ≤ 0 then
    let x := num * 2 ^ (-e).toNat
    (x / den, x % den, den)
  else
    let d := den * 2 ^ e.toNat
    (num / d, num % d, d)

/-- Round `m₀ + r / d` (with `0 ≤ r < d`) to an integer, ties to even. -/
def roundHalfEven (m₀ r d : Nat) : Nat :=
  if d < 2 * r then m₀ + 1
  else if 2 * r < d then m₀
  else if m₀ % 2 = 0 then m₀ else m₀ + 1

/-- Round the positive rational `num / den` to the nearest binary64 value
(round-to-nearest, ties to even), as a normalized significand–exponent
pair.  The candidate exponent puts the scaled quotient in `[2^51, 2^53)`;
when it falls below `2^52` the exponent is lowered by one, so the rounded
significand is always normalized (a carry to `2^53` moves it back to
`2^52` with the exponent raised, which represents the same value). -/
def roundPos (num den : Nat) : Nat × Int :=
  let e₁ : Int := (bitLen num : Int) - (bitLen den : Int) - 52
  let q₁ := scaledDivMod num den e₁
  let s := if q₁.1 < 2 ^ 52 then (e₁ - 1, scaledDivMod num den (e₁ - 1))
           else (e₁, q₁)
  let m := roundHalfEven s.2.1 s.2.2.1 s.2.2.2
  if m = 2 ^ 53 then (2 ^ 52, s.1 + 1) else (m, s.1)

/-- Correctly rounded double square root of a normalized nonnegative
double.  The input is rescaled to an even exponent, then multiplied by
`2^52` so that the true square root lies in `[2^52, 2^53)`; the floor
square root is corrected to round-to-nearest by one exact comparison of
`4M` against `(2·s₀+1)^2` (a tie is impossible — odd square against a
multiple of four — but ties-to-even is spelled out anyway). -/
def fpSqrt (x : Nat × Int) : Nat × Int :=
  if x.1 = 0 then (0, 0)
  else
    let t := Int.fdiv x.2 2
    let m₂ := x.1 * 2 ^ (x.2 - 2 * t).toNat
    let M := m₂ * 2 ^ 52
    let s₀ := isqrt M
    let s :=
      if (2 * s₀ + 1) ^ 2 < 4 * M then s₀ + 1
      else if 4 * M < (2 * s₀ + 1) ^ 2 then s₀
      else if s₀ % 2 = 0 then s₀ else s₀ + 1
    if s = 2 ^ 53 then (2 ^ 52, t - 25) else (s, t - 26)

/-- `int(d)` for a nonnegative double: truncation (= floor). -/
def fpFloor (x : Nat × Int) : Nat :=
  if 0 ≤ x.2 then x.1 * 2 ^ x.2.toNat else x.1 / 2 ^ (-x.2).toNat

/-- `calculate_level` as the program actually computes it:
`int(math.sqrt(xp / 100)) + 1` in IEEE-754 double precision — `xp / 100`
as the correctly rounded double nearest the exact rational, `math.sqrt`
as the correctly rounded double square root, then truncation. -/
def calculate_level_fp (xp : Nat) : Nat :=
  let d := if xp = 0 then ((0 : Nat), (0 : Int)) else roundPos xp 100
  fpFloor (fpSqrt d) + 1

/-- The record created by `get_user_data` for a previously unseen user. -/
def freshRecord (un : Option String) : UserRecord :=
  { username := un.getD "Unknown"
    xp := 0
    level := 1
    messages := 0
    reactions := 0
    vc_seconds := 0
    vc_partners := []
    longest_session := 0
    longest_session_date := none }

/-- The username refresh `get_user_data` performs on an existing record
(the three backfilled fields are always present on a `UserRecord`, so the
backfills are identities here; see the raw layer below for partial
records). -/
def touchRecord (un : Option String) (r : UserRecord) : UserRecord :=
  match un with
  | some n => { r with username := n }
  | none => r

/-- Read a user record out of the ledger: `data[guild_id][user_id]`. -/
def getUser (data : Ledger) (g u : String) : Option UserRecord :=
  alLookup ((alLookup data g).getD []) u

/-- The record `get_user_data` returns for `(g, u)`: the stored record with
its username refreshed, or a fresh zero record. -/
def ensuredRecord (data : Ledger) (g u : String) (un : Option String) :
    UserRecord :=
  match getUser data g u with
  | some r => touchRecord un r
  | none => freshRecord un

/-- `get_user_data`, as a transformation of the in-memory ledger: ensures
the guild's dict and the user's record exist and refreshes the username. -/
def get_user_data (data : Ledger) (g u : String) (un : Option String) :
    Ledger :=
  alSet data g (alSet ((alLookup data g).getD []) u (ensuredRecord data g u un))

/-- Mutation of the record object returned by `get_user_data`: the caller's
field updates through the returned reference become an in-place modify. -/
def updateUser (data : Ledger) (g u : String) (f : UserRecord → UserRecord) :
    Ledger :=
  alModify data g (fun gd => alModify gd u f)

theorem getUser_get_user_data (data : Ledger) (g u : String) (un : Option String)
    (g₁ u₁ : String) :
    getUser (get_user_data data g u un) g₁ u₁ =
      if g = g₁ ∧ u = u₁ then some (ensuredRecord data g u un)
      else getUser data g₁ u₁ := by
  unfold getUser get_user_data
  rw [alLookup_alSet]
  by_cases hg : g = g₁
  · subst hg
    simp only [if_pos rfl, Option.getD_some]
    by_cases hu : u = u₁ <;> simp [hu, alLookup_alSet]
  · simp [hg]

theorem getUser_updateUser (data : Ledger) (g u : String)
    (f : UserRecord → UserRecord) (g₁ u₁ : String) :
    getUser (updateUser data g u f) g₁ u₁ =
      if g = g₁ ∧ u = u₁ then (getUser data g u).map f
      else getUser data g₁ u₁ := by
  unfold getUser updateUser
  rw [alLookup_alModify]
  by_cases hg : g = g₁
  · subst hg
    simp only [if_pos rfl]
    cases hgd : alLookup data g with
    | none => by_cases hu : u = u₁ <;> simp [hu, alLookup]
    | some gd =>
      simp only [Option.map_some, Option.getD_some]
      by_cases hu : u = u₁ <;> simp [hu, alLookup_alModify]
  · simp [hg]

/-- The combined effect on `(g, u)` of loading the record with
`get_user_data` and then mutating it in place. -/
theorem getUser_apply_self (data : Ledger) (g u : String) (un : Option String)
    (f : UserRecord → UserRecord) :
    getUser (updateUser (get_user_data data g u un) g u f) g u =
      some (f (ensuredRecord data g u un)) := by
  rw [getUser_updateUser]
  simp [getUser_get_user_data]

/-- A load-then-mutate of `(g, u)` leaves every other user's record
untouched. -/
theorem getUser_apply_ne (data : Ledger) (g u : String) (un : Option String)
    (f : UserRecord → UserRecord) (g₁ u₁ : String) (h : ¬(g = g₁ ∧ u = u₁)) :
    getUser (updateUser (get_user_data data g u un) g u f) g₁ u₁ =
      getUser data g₁ u₁ := by
  rw [getUser_updateUser, if_neg h, getUser_get_user_data, if_neg h]

theorem ensuredRecord_congr (d₁ d₂ : Ledger) (g u : String) (un : Option String)
    (h : getUser d₁ g u = getUser d₂ g u) :
    ensuredRecord d₁ g u un = ensuredRecord d₂ g u un := by
  unfold ensuredRecord
  rw [h]

/-! ### Claim C1 -/

theorem calculate_level_threshold (k : Nat) :
    calculate_level (xp_for_next_level (k + 1)) = k + 2 := by
  unfold calculate_level xp_for_next_level
  have h : (k + 1) ^ 2 * 100 / 100 = (k + 1) ^ 2 := by
    omega
  rw [h, Nat.sqrt_eq']

theorem calculate_level_below_threshold (k : Nat) :
    calculate_level (xp_for_next_level (k + 1) - 1) = k + 1 := by
  unfold calculate_level xp_for_next_level
  have hsq : (k + 1) ^ 2 = k * k + 2 * k + 1 := by ring
  have h : ((k + 1) ^ 2 * 100 - 1) / 100 = (k + 1) ^ 2 - 1 := by
    omega
  rw [h]
  have hk : k = Nat.sqrt ((k + 1) ^ 2 - 1) := by
    rw [Nat.eq_sqrt']
    constructor
    · have : k ^ 2 = k * k := by ring
      omega
    · omega
  omega

theorem calculate_level_mono {a b : Nat} (h : a ≤ b) :
    calculate_level a ≤ calculate_level b := by
  unfold calculate_level
  have h₁ : a / 100 ≤ b / 100 := Nat.div_le_div_right h
  have h₂ := Nat.sqrt_le_sqrt h₁
  omega

/-- Counterexample to claim C1 as stated, at `L = 10^7`: the threshold
minus one is `10^16 - 1`, which double precision cannot represent —
`(10^16 - 1) / 100` rounds to a value whose correctly rounded square root
is exactly `10^7` — so the program's `calculate_level` already returns
`10000001` one XP below the threshold, violating
`calculate_level (xp_for_next_level L - 1) = L` and the least-threshold
property at `L = 10^7`. -/
theorem C1_counterexample :
    xp_for_next_level 10000000 - 1 = 10 ^ 16 - 1 ∧
    calculate_level_fp (xp_for_next_level 10000000 - 1) = 10000001 ∧
    (10000001 : Nat) ≠ 10000000 :=
  ⟨by decide, by decide, by decide⟩

set_option maxRecDepth 100000 in
/-- Claim C1 as amended: in exact integer arithmetic the documented
formulas are boundary-consistent for every level `L ≥ 1` —
`calculate_level` maps `xp_for_next_level L - 1` to `L` and
`xp_for_next_level L` to `L + 1`, every smaller XP maps to a level at most
`L`, so the threshold is the least cumulative XP attaining `L + 1`; and
the program's double-precision evaluation `calculate_level_fp` satisfies
the two boundary identities for all `1 ≤ L ≤ 100` (verified
exhaustively), but not for every `L`: float rounding breaks them at
`L = 10^7`. -/
theorem C1_boundary_exact_and_float :
    (∀ L : Nat, 1 ≤ L →
      calculate_level (xp_for_next_level L - 1) = L ∧
      calculate_level (xp_for_next_level L) = L + 1 ∧
      ∀ xp : Nat, xp < xp_for_next_level L → calculate_level xp ≤ L) ∧
    (∀ L : Nat, L < 101 → 1 ≤ L →
      calculate_level_fp (xp_for_next_level L - 1) = L ∧
      calculate_level_fp (xp_for_next_level L) = L + 1) := by
  constructor
  · intro L hL
    obtain ⟨k, rfl⟩ : ∃ k, L = k + 1 := ⟨L - 1, by omega⟩
    refine ⟨calculate_level_below_threshold k, calculate_level_threshold k, ?_⟩
    intro xp hxp
    have h₁ : xp ≤ xp_for_next_level (k + 1) - 1 := by omega
    have h₂ := calculate_level_mono h₁
    rw [calculate_level_below_threshold k] at h₂
    exact h₂
  · decide

/-- Witness for C1: the amended theorem applied at `L = 3` for the exact
part and at `L = 7` for the double-precision part. -/
theorem C1_witness :
    (calculate_level (xp_for_next_level 3 - 1) = 3 ∧
     calculate_level (xp_for_next_level 3) = 3 + 1 ∧
     ∀ xp : Nat, xp < xp_for_next_level 3 → calculate_level xp ≤ 3) ∧
    (calculate_level_fp (xp_for_next_level 7 - 1) = 7 ∧
     calculate_level_fp (xp_for_next_level 7) = 7 + 1) :=
  ⟨C1_boundary_exact_and_float.1 3 (by decide),
   C1_boundary_exact_and_float.2 7 (by decide) (by decide)⟩

/-! ### `on_message` (message XP with per-user cooldown) -/

/-- A guild message as the handler sees it. -/
structure MessageEvent where
  guild : String
  author : String
  authorName : String
  authorIsBot : Bool
  time : Int
  deriving Repr, DecidableEq

/-- The field updates `on_message` applies to the author's record on an
accepted message. -/
def grantMessageXP (cfg : Config) (r : UserRecord) : UserRecord :=
  let xp := r.xp + cfg.xp_per_message
  { r with xp := xp, messages := r.messages + 1, level := calculate_level xp }

/-- `on_message`: bot authors are ignored; a message inside the cooldown
window since the last accepted message is discarded; otherwise the cooldown
is refreshed and the author's record gains message XP.  Returns the new
cooldown map and the persisted ledger. -/
def on_message (cfg : Config) (cooldowns : List (String × Int)) (data : Ledger)
    (e : MessageEvent) : List (String × Int) × Ledger :=
  if e.authorIsBot then (cooldowns, data)
  else
    let key := e.guild ++ "_" ++ e.author
    let accepted : List (String × Int) × Ledger :=
      (alSet cooldowns key e.time,
       updateUser (get_user_data data e.guild e.author (some e.authorName))
         e.guild e.author (grantMessageXP cfg))
    match alLookup cooldowns key with
    | some last =>
      if e.time - last < (cfg.message_cooldown : Int) then (cooldowns, data)
      else accepted
    | none => accepted

/-! ### `on_raw_reaction_add` (reaction XP) -/

/-- A processed reaction-add event (the message fetch succeeded and both
parties resolved; fetch failures abort the handler before any ledger
access). -/
structure ReactionEvent where
  guild : String
  reactor : String
  reactorName : String
  reactorIsBot : Bool
  author : String
  authorName : String
  authorIsBot : Bool
  deriving Repr, DecidableEq

/-- Reactor-side grant: XP plus a `reactions` counter increment. -/
def grantReactorXP (cfg : Config) (r : UserRecord) : UserRecord :=
  let xp := r.xp + cfg.xp_per_reaction
  { r with xp := xp, reactions := r.reactions + 1, level := calculate_level xp }

/-- Author-side grant: XP only, no counter increment. -/
def grantAuthorXP (cfg : Config) (r : UserRecord) : UserRecord :=
  let xp := r.xp + cfg.xp_per_reaction
  { r with xp := xp, level := calculate_level xp }

/-- `on_raw_reaction_add`: a bot reactor is ignored; the reactor is granted
reaction XP, and if the message author is neither a bot nor the reactor,
the author is independently granted reaction XP as well. -/
def on_raw_reaction_add (cfg : Config) (data : Ledger) (e : ReactionEvent) :
    Ledger :=
  if e.reactorIsBot then data
  else
    let data₁ :=
      updateUser (get_user_data data e.guild e.reactor (some e.reactorName))
        e.guild e.reactor (grantReactorXP cfg)
    if e.authorIsBot = false ∧ e.author ≠ e.reactor then
      updateUser (get_user_data data₁ e.guild e.author (some e.authorName))
        e.guild e.author (grantAuthorXP cfg)
    else data₁

/-! ### Claims C3, C4, C10 -/

/-- Claim C3: a reaction by non-bot `A` on a message authored by non-bot
`B ≠ A` grants exactly `xp_per_reaction` to each of them, increments `A`'s
`reactions` counter and leaves `B`'s `reactions` counter unchanged. -/
theorem C3_reaction_grants_both (cfg : Config) (data : Ledger) (e : ReactionEvent)
    (hA : e.reactorIsBot = false) (hB : e.authorIsBot = false)
    (hne : e.author ≠ e.reactor) :
    ∃ rA rB : UserRecord,
      getUser (on_raw_reaction_add cfg data e) e.guild e.reactor = some rA ∧
      getUser (on_raw_reaction_add cfg data e) e.guild e.author = some rB ∧
      rA.xp = (ensuredRecord data e.guild e.reactor (some e.reactorName)).xp +
                cfg.xp_per_reaction ∧
      rA.reactions =
        (ensuredRecord data e.guild e.reactor (some e.reactorName)).reactions + 1 ∧
      rB.xp = (ensuredRecord data e.guild e.author (some e.authorName)).xp +
                cfg.xp_per_reaction ∧
      rB.reactions =
        (ensuredRecord data e.guild e.author (some e.authorName)).reactions := by
  unfold on_raw_reaction_add
  rw [if_neg (by simp [hA]), if_pos ⟨hB, hne⟩]
  set data₁ :=
    updateUser (get_user_data data e.guild e.reactor (some e.reactorName))
      e.guild e.reactor (grantReactorXP cfg) with hdata₁
  have hframe : getUser data₁ e.guild e.author = getUser data e.guild e.author := by
    rw [hdata₁]
    exact getUser_apply_ne _ _ _ _ _ _ _ (by intro h; exact hne (h.2.symm ▸ rfl))
  refine ⟨grantReactorXP cfg (ensuredRecord data e.guild e.reactor (some e.reactorName)),
          grantAuthorXP cfg (ensuredRecord data₁ e.guild e.author (some e.authorName)),
          ?_, ?_, ?_, ?_, ?_, ?_⟩
  · rw [getUser_apply_ne _ _ _ _ _ _ _ (by intro h; exact hne h.2)]
    rw [hdata₁]
    exact getUser_apply_self _ _ _ _ _
  · exact getUser_apply_self _ _ _ _ _
  · simp [grantReactorXP]
  · simp [grantReactorXP]
  · rw [ensuredRecord_congr data₁ data _ _ _ hframe]
    simp [grantAuthorXP]
  · rw [ensuredRecord_congr data₁ data _ _ _ hframe]
    simp [grantAuthorXP]

/-- Witness for C3: user `b` reacts to a message of user `a` on an empty
ledger with the default configuration. -/
theorem C3_witness :
    ∃ rA rB : UserRecord,
      getUser (on_raw_reaction_add DEFAULT_CONFIG []
          ⟨"g", "b", "B", false, "a", "A", false⟩) "g" "b" = some rA ∧
      getUser (on_raw_reaction_add DEFAULT_CONFIG []
          ⟨"g", "b", "B", false, "a", "A", false⟩) "g" "a" = some rB ∧
      rA.xp = (ensuredRecord [] "g" "b" (some "B")).xp +
                DEFAULT_CONFIG.xp_per_reaction ∧
      rA.reactions = (ensuredRecord [] "g" "b" (some "B")).reactions + 1 ∧
      rB.xp = (ensuredRecord [] "g" "a" (some "A")).xp +
                DEFAULT_CONFIG.xp_per_reaction ∧
      rB.reactions = (ensuredRecord [] "g" "a" (some "A")).reactions :=
  C3_reaction_grants_both DEFAULT_CONFIG []
    ⟨"g", "b", "B", false, "a", "A", false⟩ rfl rfl (by decide)

/-- Claim C10: a non-bot user reacting to their own message is still
granted exactly `xp_per_reaction` (with the `reactions` counter
incremented); the author-side grant is skipped, so the total XP gain is
`xp_per_reaction`, not twice that. -/
theorem C10_self_reaction_single_grant (cfg : Config) (data : Ledger)
    (e : ReactionEvent) (hA : e.reactorIsBot = false) (hself : e.author = e.reactor) :
    ∃ r₁ : UserRecord,
      getUser (on_raw_reaction_add cfg data e) e.guild e.reactor = some r₁ ∧
      r₁.xp = (ensuredRecord data e.guild e.reactor (some e.reactorName)).xp +
                cfg.xp_per_reaction ∧
      r₁.reactions =
        (ensuredRecord data e.guild e.reactor (some e.reactorName)).reactions + 1 := by
  unfold on_raw_reaction_add
  rw [if_neg (by simp [hA]), if_neg (by intro h; exact h.2 hself)]
  exact ⟨grantReactorXP cfg (ensuredRecord data e.guild e.reactor (some e.reactorName)),
         getUser_apply_self _ _ _ _ _, by simp [grantReactorXP], by simp [grantReactorXP]⟩

/-- Witness for C10: user `a` reacts to their own message on an empty
ledger; the XP gain is a single `xp_per_reaction`. -/
theorem C10_witness :
    ∃ r₁ : UserRecord,
      getUser (on_raw_reaction_add DEFAULT_CONFIG []
          ⟨"g", "a", "A", false, "a", "A", false⟩) "g" "a" = some r₁ ∧
      r₁.xp = (ensuredRecord [] "g" "a" (some "A")).xp +
                DEFAULT_CONFIG.xp_per_reaction ∧
      r₁.reactions = (ensuredRecord [] "g" "a" (some "A")).reactions + 1 :=
  C10_self_reaction_single_grant DEFAULT_CONFIG []
    ⟨"g", "a", "A", false, "a", "A", false⟩ rfl rfl

theorem on_message_accepted (cfg : Config) (cooldowns : List (String × Int))
    (data : Ledger) (e : MessageEvent) (hbot : e.authorIsBot = false)
    (hpass : match alLookup cooldowns (e.guild ++ "_" ++ e.author) with
             | some last => (cfg.message_cooldown : Int) ≤ e.time - last
             | none => True) :
    on_message cfg cooldowns data e =
      (alSet cooldowns (e.guild ++ "_" ++ e.author) e.time,
       updateUser (get_user_data data e.guild e.author (some e.authorName))
         e.guild e.author (grantMessageXP cfg)) := by
  unfold on_message
  rw [if_neg (by simp [hbot])]
  cases hcd : alLookup cooldowns (e.guild ++ "_" ++ e.author) with
  | none => simp only [hcd]
  | some last =>
    rw [hcd] at hpass
    simp only [hcd]
    rw [if_neg (by omega)]

theorem on_message_blocked (cfg : Config) (cooldowns : List (String × Int))
    (data : Ledger) (e : MessageEvent) (hbot : e.authorIsBot = false) (last : Int)
    (hcd : alLookup cooldowns (e.guild ++ "_" ++ e.author) = some last)
    (hlt : e.time - last < (cfg.message_cooldown : Int)) :
    on_message cfg cooldowns data e = (cooldowns, data) := by
  unfold on_message
  rw [if_neg (by simp [hbot])]
  simp only [hcd]
  rw [if_pos hlt]

/-- Claim C4: a qualifying message from a non-bot author (no cooldown entry,
or the last accepted message at least `message_cooldown` seconds ago) grants
exactly `xp_per_message` and increments `messages` by one, and refreshes the
cooldown entry; a second message from the same author in the same guild
arriving strictly less than `message_cooldown` seconds later is discarded
with the cooldown map and ledger left completely unchanged. -/
theorem C4_message_xp_and_cooldown (cfg : Config) (cooldowns : List (String × Int))
    (data : Ledger) (e e₂ : MessageEvent) (hbot : e.authorIsBot = false)
    (hpass : match alLookup cooldowns (e.guild ++ "_" ++ e.author) with
             | some last => (cfg.message_cooldown : Int) ≤ e.time - last
             | none => True)
    (hbot₂ : e₂.authorIsBot = false) (hg₂ : e₂.guild = e.guild)
    (ha₂ : e₂.author = e.author)
    (hfast : e₂.time - e.time < (cfg.message_cooldown : Int)) :
    (on_message cfg cooldowns data e).1 =
      alSet cooldowns (e.guild ++ "_" ++ e.author) e.time ∧
    (∃ r₁ : UserRecord,
      getUser (on_message cfg cooldowns data e).2 e.guild e.author = some r₁ ∧
      r₁.xp = (ensuredRecord data e.guild e.author (some e.authorName)).xp +
                cfg.xp_per_message ∧
      r₁.messages =
        (ensuredRecord data e.guild e.author (some e.authorName)).messages + 1) ∧
    on_message cfg (on_message cfg cooldowns data e).1
        (on_message cfg cooldowns data e).2 e₂ =
      on_message cfg cooldowns data e := by
  have hacc := on_message_accepted cfg cooldowns data e hbot hpass
  refine ⟨by rw [hacc], ?_, ?_⟩
  · rw [hacc]
    exact ⟨grantMessageXP cfg (ensuredRecord data e.guild e.author (some e.authorName)),
           getUser_apply_self _ _ _ _ _, by simp [grantMessageXP], by simp [grantMessageXP]⟩
  · rw [hacc]
    exact on_message_blocked cfg _ _ e₂ hbot₂ e.time
      (by rw [hg₂, ha₂]; simp [alLookup_alSet]) (by omega)

/-- Witness for C4: a first message at time 0 is accepted, a second one at
time 3 (inside the default 10-second cooldown) is discarded. -/
theorem C4_witness :
    (on_message DEFAULT_CONFIG [] [] ⟨"g", "a", "A", false, 0⟩).1 =
      alSet [] ("g" ++ "_" ++ "a") 0 ∧
    (∃ r₁ : UserRecord,
      getUser (on_message DEFAULT_CONFIG [] [] ⟨"g", "a", "A", false, 0⟩).2
          "g" "a" = some r₁ ∧
      r₁.xp = (ensuredRecord [] "g" "a" (some "A")).xp +
                DEFAULT_CONFIG.xp_per_message ∧
      r₁.messages = (ensuredRecord [] "g" "a" (some "A")).messages + 1) ∧
    on_message DEFAULT_CONFIG (on_message DEFAULT_CONFIG [] [] ⟨"g", "a", "A", false, 0⟩).1
        (on_message DEFAULT_CONFIG [] [] ⟨"g", "a", "A", false, 0⟩).2
        ⟨"g", "a", "A", false, 3⟩ =
      on_message DEFAULT_CONFIG [] [] ⟨"g", "a", "A", false, 0⟩ :=
  C4_message_xp_and_cooldown DEFAULT_CONFIG [] [] ⟨"g", "a", "A", false, 0⟩
    ⟨"g", "a", "A", false, 3⟩ rfl trivial rfl rfl rfl (by decide)

/-! ### `check_voice_xp` (the per-minute voice tick) -/

/-- A member currently connected to a voice channel, with the flags the
tick inspects. -/
structure Occupant where
  id : String
  name : String
  isBot : Bool
  self_mute : Bool
  mute : Bool
  deriving Repr, DecidableEq

/-- `non_bot_members`: the occupants that qualify for the tick — not bots,
not self-muted, not server-muted. -/
def qualifyingMembers (ms : List Occupant) : List Occupant :=
  ms.filter (fun m => !m.isBot && !m.self_mute && !m.mute)

/-- Add one minute of shared time with partner `p` to a `vc_partners` map:
the entry is created with zero seconds if absent, then gains 60 seconds and
a refreshed username. -/
def addPartnerMinute (ps : List (String × PartnerData)) (p : Occupant) :
    List (String × PartnerData) :=
  let pd := match alLookup ps p.id with
    | some pd => pd
    | none => { username := p.name, seconds := 0 }
  alSet ps p.id { username := p.name, seconds := pd.seconds + 60 }

/-- One iteration of the partner loop: self-pairs are skipped. -/
def partnerStep (m : Occupant) (ps : List (String × PartnerData)) (p : Occupant) :
    List (String × PartnerData) :=
  if p.id ≠ m.id then addPartnerMinute ps p else ps

/-- The full per-member tick update: XP, voice seconds, recomputed level,
and one shared minute with every other qualifying occupant. -/
def grantVoiceXP (cfg : Config) (nonBot : List Occupant) (m : Occupant)
    (r : UserRecord) : UserRecord :=
  let xp := r.xp + cfg.xp_per_minute_vc
  { r with
    xp := xp
    vc_seconds := r.vc_seconds + 60
    level := calculate_level xp
    vc_partners := nonBot.foldl (partnerStep m) r.vc_partners }

/-- One member's turn of the tick loop: only members whose presence key is
in `voice_join_times` receive anything. -/
def voiceTickStep (cfg : Config) (presence : List String) (g : String)
    (nonBot : List Occupant) (d : Ledger) (m : Occupant) : Ledger :=
  if (g ++ "_" ++ m.id) ∈ presence then
    updateUser (get_user_data d g m.id (some m.name)) g m.id
      (grantVoiceXP cfg nonBot m)
  else d

/-- The tick for a single voice channel: channels with at most one
qualifying occupant are skipped entirely. -/
def check_voice_channel (cfg : Config) (presence : List String) (g : String)
    (occupants : List Occupant) (data : Ledger) : Ledger :=
  let nonBot := qualifyingMembers occupants
  if nonBot.length ≤ 1 then data
  else nonBot.foldl (voiceTickStep cfg presence g nonBot) data

/-- The whole periodic tick: every voice channel of every guild in turn,
then one save of the ledger. -/
def check_voice_xp (cfg : Config) (presence : List String)
    (channels : List (String × List Occupant)) (data : Ledger) : Ledger :=
  channels.foldl (fun d gc => check_voice_channel cfg presence gc.1 gc.2 d) data

/-- Seconds recorded against partner id `pid` in a `vc_partners` map
(zero when the entry is absent). -/
def partnerSeconds (ps : List (String × PartnerData)) (pid : String) : Nat :=
  match alLookup ps pid with
  | some pd => pd.seconds
  | none => 0

theorem partnerSeconds_partnerStep_ne (m q : Occupant)
    (ps : List (String × PartnerData)) (pid : String) (h : q.id ≠ pid) :
    alLookup (partnerStep m ps q) pid = alLookup ps pid := by
  unfold partnerStep
  by_cases hq : q.id ≠ m.id
  · rw [if_pos hq]
    unfold addPartnerMinute
    rw [alLookup_alSet, if_neg h]
  · rw [if_neg hq]

theorem partner_fold_frame (m : Occupant) (l : List Occupant) (pid : String)
    (h : ∀ q ∈ l, q.id ≠ pid) (ps : List (String × PartnerData)) :
    alLookup (l.foldl (partnerStep m) ps) pid = alLookup ps pid := by
  induction l generalizing ps with
  | nil => rfl
  | cons q t ih =>
    rw [List.foldl_cons, ih (fun x hx => h x (List.mem_cons_of_mem q hx)),
        partnerSeconds_partnerStep_ne m q ps pid (h q (List.mem_cons_self q t))]

theorem partner_fold_mem (m p : Occupant) (l : List Occupant)
    (hdist : List.Pairwise (fun a b => a.id ≠ b.id) l) (hp : p ∈ l)
    (hne : p.id ≠ m.id) (ps : List (String × PartnerData)) :
    partnerSeconds (l.foldl (partnerStep m) ps) p.id =
      partnerSeconds ps p.id + 60 := by
  induction l generalizing ps with
  | nil => cases hp
  | cons q t ih =>
    rw [List.pairwise_cons] at hdist
    rcases List.mem_cons.mp hp with hpq | hpt
    · subst hpq
      rw [List.foldl_cons]
      unfold partnerSeconds
      rw [partner_fold_frame m t p.id (fun x hx => (hdist.1 x hx).symm) _]
      unfold partnerStep
      rw [if_pos hne]
      cases h : alLookup ps p.id <;>
        simp [addPartnerMinute, h, alLookup_alSet]
    · rw [List.foldl_cons, ih hdist.2 hpt]
      have hqp : q.id ≠ p.id := hdist.1 p hpt
      unfold partnerSeconds
      rw [partnerSeconds_partnerStep_ne m q ps p.id hqp]

theorem getUser_voiceTickStep_ne (cfg : Config) (presence : List String)
    (g : String) (nonBot : List Occupant) (d : Ledger) (q : Occupant)
    (u : String) (h : q.id ≠ u) :
    getUser (voiceTickStep cfg presence g nonBot d q) g u = getUser d g u := by
  unfold voiceTickStep
  by_cases hq : (g ++ "_" ++ q.id) ∈ presence
  · rw [if_pos hq]
    exact getUser_apply_ne _ _ _ _ _ _ _ (by intro hc; exact h hc.2)
  · rw [if_neg hq]

theorem voice_fold_frame (cfg : Config) (presence : List String) (g : String)
    (nonBot : List Occupant) (u : String) (l : List Occupant)
    (h : ∀ q ∈ l, q.id = u → (g ++ "_" ++ q.id) ∉ presence) (d : Ledger) :
    getUser (l.foldl (voiceTickStep cfg presence g nonBot) d) g u =
      getUser d g u := by
  induction l generalizing d with
  | nil => rfl
  | cons q t ih =>
    rw [List.foldl_cons, ih (fun x hx => h x (List.mem_cons_of_mem q hx))]
    by_cases hq : q.id = u
    · have hnp := h q (List.mem_cons_self q t) hq
      unfold voiceTickStep
      rw [if_neg hnp]
    · exact getUser_voiceTickStep_ne cfg presence g nonBot d q u hq

theorem voice_fold_frame_ne (cfg : Config) (presence : List String) (g : String)
    (nonBot : List Occupant) (u : String) (l : List Occupant)
    (h : ∀ q ∈ l, q.id ≠ u) (d : Ledger) :
    getUser (l.foldl (voiceTickStep cfg presence g nonBot) d) g u =
      getUser d g u := by
  induction l generalizing d with
  | nil => rfl
  | cons q t ih =>
    rw [List.foldl_cons, ih (fun x hx => h x (List.mem_cons_of_mem q hx)),
        getUser_voiceTickStep_ne cfg presence g nonBot d q u
          (h q (List.mem_cons_self q t))]

theorem voice_fold_mem (cfg : Config) (presence : List String) (g : String)
    (nonBot : List Occupant) (m : Occupant) (l : List Occupant)
    (hdist : List.Pairwise (fun a b => a.id ≠ b.id) l) (hm : m ∈ l)
    (hp : (g ++ "_" ++ m.id) ∈ presence) (d : Ledger) :
    getUser (l.foldl (voiceTickStep cfg presence g nonBot) d) g m.id =
      some (grantVoiceXP cfg nonBot m (ensuredRecord d g m.id (some m.name))) := by
  induction l generalizing d with
  | nil => cases hm
  | cons q t ih =>
    rw [List.pairwise_cons] at hdist
    rcases List.mem_cons.mp hm with hmq | hmt
    · subst hmq
      rw [List.foldl_cons,
          voice_fold_frame_ne cfg presence g nonBot m.id t
            (fun x hx => (hdist.1 x hx).symm) _]
      unfold voiceTickStep
      rw [if_pos hp]
      exact getUser_apply_self _ _ _ _ _
    · rw [List.foldl_cons, ih hdist.2 hmt]
      have hfr : getUser (voiceTickStep cfg presence g nonBot d q) g m.id =
          getUser d g m.id :=
        getUser_voiceTickStep_ne cfg presence g nonBot d q m.id (hdist.1 m hmt)
      rw [ensuredRecord_congr _ _ _ _ _ hfr]

/-! ### Claim C2 -/

/-- Claim C2: for a single voice tick on one channel — (1) with at most one
qualifying occupant the ledger is untouched (a solo occupant receives
nothing); (2) with more than one, every qualifying occupant holding an
active presence-session entry gains exactly `xp_per_minute_vc` XP and 60
voice seconds, with the level recomputed, and gains 60 shared seconds in
their partner entry for every other qualifying occupant (this holds for
every such occupant, hence symmetrically for every ordered pair); (3) a
qualifying occupant without a presence-session entry receives nothing. -/
theorem C2_voice_tick (cfg : Config) (presence : List String) (g : String)
    (occupants : List Occupant) (data : Ledger) (m : Occupant)
    (hdist : List.Pairwise (fun a b => a.id ≠ b.id) occupants)
    (hm : m ∈ qualifyingMembers occupants) :
    ((qualifyingMembers occupants).length ≤ 1 →
      check_voice_channel cfg presence g occupants data = data) ∧
    (2 ≤ (qualifyingMembers occupants).length →
      (g ++ "_" ++ m.id) ∈ presence →
      ∃ r₁ : UserRecord,
        getUser (check_voice_channel cfg presence g occupants data) g m.id =
          some r₁ ∧
        r₁.xp = (ensuredRecord data g m.id (some m.name)).xp +
                  cfg.xp_per_minute_vc ∧
        r₁.vc_seconds = (ensuredRecord data g m.id (some m.name)).vc_seconds + 60 ∧
        r₁.level = calculate_level r₁.xp ∧
        ∀ p ∈ qualifyingMembers occupants, p.id ≠ m.id →
          partnerSeconds r₁.vc_partners p.id =
            partnerSeconds (ensuredRecord data g m.id (some m.name)).vc_partners
              p.id + 60) ∧
    (2 ≤ (qualifyingMembers occupants).length →
      (g ++ "_" ++ m.id) ∉ presence →
      getUser (check_voice_channel cfg presence g occupants data) g m.id =
        getUser data g m.id) := by
  have hqdist : List.Pairwise (fun a b : Occupant => a.id ≠ b.id)
      (qualifyingMembers occupants) := List.Pairwise.filter _ hdist
  refine ⟨?_, ?_, ?_⟩
  · intro hlen
    unfold check_voice_channel
    rw [if_pos hlen]
  · intro hlen hpres
    unfold check_voice_channel
    rw [if_neg (by omega)]
    refine ⟨grantVoiceXP cfg (qualifyingMembers occupants) m
              (ensuredRecord data g m.id (some m.name)),
            voice_fold_mem cfg presence g _ m _ hqdist hm hpres data,
            by simp [grantVoiceXP], by simp [grantVoiceXP], by simp [grantVoiceXP], ?_⟩
    intro p hpq hpne
    simp only [grantVoiceXP]
    exact partner_fold_mem m p (qualifyingMembers occupants) hqdist hpq hpne _
  · intro hlen hnp
    unfold check_voice_channel
    rw [if_neg (by omega)]
    refine voice_fold_frame cfg presence g _ m.id _ ?_ data
    intro q hq hqid
    rw [hqid]
    exact hnp

/-- Witness for C2: two unmuted humans `a`, `b` in one channel, both with
active presence sessions, on an empty ledger. -/
theorem C2_witness :
    ((qualifyingMembers [⟨"a", "A", false, false, false⟩,
        ⟨"b", "B", false, false, false⟩]).length ≤ 1 →
      check_voice_channel DEFAULT_CONFIG ["g_a", "g_b"] "g"
        [⟨"a", "A", false, false, false⟩, ⟨"b", "B", false, false, false⟩] [] = []) ∧
    (2 ≤ (qualifyingMembers [⟨"a", "A", false, false, false⟩,
        ⟨"b", "B", false, false, false⟩]).length →
      ("g" ++ "_" ++ "a") ∈ ["g_a", "g_b"] →
      ∃ r₁ : UserRecord,
        getUser (check_voice_channel DEFAULT_CONFIG ["g_a", "g_b"] "g"
            [⟨"a", "A", false, false, false⟩, ⟨"b", "B", false, false, false⟩] [])
          "g" "a" = some r₁ ∧
        r₁.xp = (ensuredRecord [] "g" "a" (some "A")).xp +
                  DEFAULT_CONFIG.xp_per_minute_vc ∧
        r₁.vc_seconds = (ensuredRecord [] "g" "a" (some "A")).vc_seconds + 60 ∧
        r₁.level = calculate_level r₁.xp ∧
        ∀ p ∈ qualifyingMembers [⟨"a", "A", false, false, false⟩,
            ⟨"b", "B", false, false, false⟩], p.id ≠ "a" →
          partnerSeconds r₁.vc_partners p.id =
            partnerSeconds (ensuredRecord [] "g" "a" (some "A")).vc_partners
              p.id + 60) ∧
    (2 ≤ (qualifyingMembers [⟨"a", "A", false, false, false⟩,
        ⟨"b", "B", false, false, false⟩]).length →
      ("g" ++ "_" ++ "a") ∉ ["g_a", "g_b"] →
      getUser (check_voice_channel DEFAULT_CONFIG ["g_a", "g_b"] "g"
          [⟨"a", "A", false, false, false⟩, ⟨"b", "B", false, false, false⟩] [])
        "g" "a" = getUser [] "g" "a") :=
  C2_voice_tick DEFAULT_CONFIG ["g_a", "g_b"] "g"
    [⟨"a", "A", false, false, false⟩, ⟨"b", "B", false, false, false⟩] []
    ⟨"a", "A", false, false, false⟩ (by decide) (by decide)

/-! ### `on_voice_state_update` (presence tracking and longest session) -/

/-- The two in-memory maps of the voice presence tracker, keyed by
`"{guild_id}_{member_id}"`. -/
structure PresenceState where
  voice_join_times : List (String × Int)
  voice_session_starts : List (String × Int)
  deriving Repr, DecidableEq

/-- A voice state transition as the handler sees it. -/
structure VoiceEvent where
  guild : String
  member : String
  memberName : String
  isBot : Bool
  beforeChannel : Option String
  afterChannel : Option String
  now : Int
  nowIso : String
  deriving Repr, DecidableEq

/-- `on_voice_state_update`: a join creates both presence timestamps; a
leave computes the elapsed session, updates `longest_session` (and its
date) in the ledger only when the session is a new record — the ledger is
saved only in that case — and drops the presence entries.  Any other
transition (mute toggles, channel moves) changes nothing. -/
def on_voice_state_update (st : PresenceState) (data : Ledger) (e : VoiceEvent) :
    PresenceState × Ledger :=
  if e.isBot then (st, data)
  else
    let key := e.guild ++ "_" ++ e.member
    match e.beforeChannel, e.afterChannel with
    | none, some _ =>
      ({ voice_join_times := alSet st.voice_join_times key e.now
         voice_session_starts := alSet st.voice_session_starts key e.now }, data)
    | some _, none =>
      let stepped : List (String × Int) × Ledger :=
        match alLookup st.voice_session_starts key with
        | some started =>
          let sessionDuration := (e.now - started).toNat
          let r := ensuredRecord data e.guild e.member (some e.memberName)
          let data₁ :=
            if r.longest_session < sessionDuration then
              updateUser (get_user_data data e.guild e.member (some e.memberName))
                e.guild e.member
                (fun r₀ => { r₀ with
                  longest_session := sessionDuration
                  longest_session_date := some e.nowIso })
            else data
          (alErase st.voice_session_starts key, data₁)
        | none => (st.voice_session_starts, data)
      ({ voice_join_times := alErase st.voice_join_times key
         voice_session_starts := stepped.1 }, stepped.2)
    | _, _ => (st, data)

/-! ### Claim C6 -/

/-- Claim C6: on a session end of duration `d` — if `d` is strictly greater
than the stored `longest_session` the persisted record gets
`longest_session = d` and a non-null `longest_session_date`, with `xp`,
`level`, `messages`, `reactions`, `vc_seconds` and `vc_partners` all
unchanged (no XP at session end); if `d` is not greater, the persisted
ledger is left entirely unchanged. -/
theorem C6_session_end (st : PresenceState) (data : Ledger) (e : VoiceEvent)
    (c : String) (hbot : e.isBot = false) (hbe : e.beforeChannel = some c)
    (haf : e.afterChannel = none) (started : Int)
    (hst : alLookup st.voice_session_starts (e.guild ++ "_" ++ e.member) =
             some started) :
    ((ensuredRecord data e.guild e.member (some e.memberName)).longest_session <
        (e.now - started).toNat →
      ∃ r₁ : UserRecord,
        getUser (on_voice_state_update st data e).2 e.guild e.member = some r₁ ∧
        r₁.longest_session = (e.now - started).toNat ∧
        r₁.longest_session_date = some e.nowIso ∧
        r₁.longest_session_date ≠ none ∧
        r₁.xp = (ensuredRecord data e.guild e.member (some e.memberName)).xp ∧
        r₁.level = (ensuredRecord data e.guild e.member (some e.memberName)).level ∧
        r₁.messages =
          (ensuredRecord data e.guild e.member (some e.memberName)).messages ∧
        r₁.reactions =
          (ensuredRecord data e.guild e.member (some e.memberName)).reactions ∧
        r₁.vc_seconds =
          (ensuredRecord data e.guild e.member (some e.memberName)).vc_seconds ∧
        r₁.vc_partners =
          (ensuredRecord data e.guild e.member (some e.memberName)).vc_partners) ∧
    (¬ (ensuredRecord data e.guild e.member (some e.memberName)).longest_session <
        (e.now - started).toNat →
      (on_voice_state_update st data e).2 = data) := by
  unfold on_voice_state_update
  rw [if_neg (by simp [hbot]), hbe, haf]
  simp only [hst]
  constructor
  · intro hgt
    rw [if_pos hgt]
    exact ⟨_, getUser_apply_self _ _ _ _ _, rfl, rfl, by simp, rfl, rfl, rfl, rfl,
           rfl, rfl⟩
  · intro hle
    rw [if_neg hle]

/-- Witness for C6: a 125-second session against a prior longest of 0 on an
empty ledger (the session started at time 0 and ends at time 125). -/
theorem C6_witness :
    ((ensuredRecord [] "g" "a" (some "A")).longest_session <
        ((125 : Int) - 0).toNat →
      ∃ r₁ : UserRecord,
        getUser (on_voice_state_update ⟨[("g_a", 0)], [("g_a", 0)]⟩ []
            ⟨"g", "a", "A", false, some "c", none, 125, "T"⟩).2 "g" "a" = some r₁ ∧
        r₁.longest_session = ((125 : Int) - 0).toNat ∧
        r₁.longest_session_date = some "T" ∧
        r₁.longest_session_date ≠ none ∧
        r₁.xp = (ensuredRecord [] "g" "a" (some "A")).xp ∧
        r₁.level = (ensuredRecord [] "g" "a" (some "A")).level ∧
        r₁.messages = (ensuredRecord [] "g" "a" (some "A")).messages ∧
        r₁.reactions = (ensuredRecord [] "g" "a" (some "A")).reactions ∧
        r₁.vc_seconds = (ensuredRecord [] "g" "a" (some "A")).vc_seconds ∧
        r₁.vc_partners = (ensuredRecord [] "g" "a" (some "A")).vc_partners) ∧
    (¬ (ensuredRecord [] "g" "a" (some "A")).longest_session <
        ((125 : Int) - 0).toNat →
      (on_voice_state_update ⟨[("g_a", 0)], [("g_a", 0)]⟩ []
          ⟨"g", "a", "A", false, some "c", none, 125, "T"⟩).2 = []) :=
  C6_session_end ⟨[("g_a", 0)], [("g_a", 0)]⟩ []
    ⟨"g", "a", "A", false, some "c", none, 125, "T"⟩ "c" rfl rfl rfl 0 (by decide)

/-! ### Claim C5 (the `level = calculate_level xp` invariant) -/

/-- Every record reachable by lookup satisfies the cached-level
invariant. -/
def ledgerInv (data : Ledger) : Prop :=
  ∀ g u r, getUser data g u = some r → r.level = calculate_level r.xp

theorem ledgerInv_apply (data : Ledger) (g u : String) (un : Option String)
    (f : UserRecord → UserRecord)
    (hf : ∀ r, (f r).level = calculate_level (f r).xp) (h : ledgerInv data) :
    ledgerInv (updateUser (get_user_data data g u un) g u f) := by
  intro g₁ u₁ r hr
  rw [getUser_updateUser] at hr
  by_cases hk : g = g₁ ∧ u = u₁
  · rw [if_pos hk, getUser_get_user_data, if_pos ⟨rfl, rfl⟩] at hr
    rw [← Option.some.inj hr]
    exact hf _
  · rw [if_neg hk, getUser_get_user_data, if_neg hk] at hr
    exact h g₁ u₁ r hr

theorem ledgerInv_voiceTickStep (cfg : Config) (presence : List String)
    (g : String) (nonBot : List Occupant) (d : Ledger) (m : Occupant)
    (h : ledgerInv d) : ledgerInv (voiceTickStep cfg presence g nonBot d m) := by
  unfold voiceTickStep
  by_cases hp : (g ++ "_" ++ m.id) ∈ presence
  · rw [if_pos hp]
    exact ledgerInv_apply _ _ _ _ _ (fun r => by simp [grantVoiceXP]) h
  · rw [if_neg hp]
    exact h

theorem ledgerInv_foldl {β : Type} (f : Ledger → β → Ledger)
    (hf : ∀ d b, ledgerInv d → ledgerInv (f d b)) :
    ∀ (l : List β) (d : Ledger), ledgerInv d → ledgerInv (List.foldl f d l) := by
  intro l
  induction l with
  | nil => exact fun d h => h
  | cons b t ih => exact fun d h => ih (f d b) (hf d b h)

theorem ledgerInv_check_voice_channel (cfg : Config) (presence : List String)
    (g : String) (occupants : List Occupant) (d : Ledger) (h : ledgerInv d) :
    ledgerInv (check_voice_channel cfg presence g occupants d) := by
  unfold check_voice_channel
  by_cases hlen : (qualifyingMembers occupants).length ≤ 1
  · rw [if_pos hlen]
    exact h
  · rw [if_neg hlen]
    exact ledgerInv_foldl _ (ledgerInv_voiceTickStep cfg presence g _) _ d h

/-- Claim C5: freshly created records satisfy `level = calculate_level xp`
(being exactly `xp = 0`, `level = 1`), and each of the three mutating
event handlers — message, reaction add, voice tick — preserves the
invariant for every record of the ledger. -/
theorem C5_level_invariant :
    (∀ un, (freshRecord un).xp = 0 ∧ (freshRecord un).level = 1 ∧
      (freshRecord un).level = calculate_level (freshRecord un).xp) ∧
    (∀ cfg cooldowns data e, ledgerInv data →
      ledgerInv (on_message cfg cooldowns data e).2) ∧
    (∀ cfg data e, ledgerInv data →
      ledgerInv (on_raw_reaction_add cfg data e)) ∧
    (∀ cfg presence channels data, ledgerInv data →
      ledgerInv (check_voice_xp cfg presence channels data)) := by
  refine ⟨fun un => ⟨rfl, rfl, by simp [freshRecord, calculate_level]⟩, ?_, ?_, ?_⟩
  · intro cfg cooldowns data e h
    unfold on_message
    by_cases hbot : e.authorIsBot
    · rw [if_pos hbot]
      exact h
    · rw [if_neg hbot]
      cases hcd : alLookup cooldowns (e.guild ++ "_" ++ e.author) with
      | none =>
        simp only [hcd]
        exact ledgerInv_apply _ _ _ _ _ (fun r => by simp [grantMessageXP]) h
      | some last =>
        simp only [hcd]
        by_cases hlt : e.time - last < (cfg.message_cooldown : Int)
        · rw [if_pos hlt]
          exact h
        · rw [if_neg hlt]
          exact ledgerInv_apply _ _ _ _ _ (fun r => by simp [grantMessageXP]) h
  · intro cfg data e h
    unfold on_raw_reaction_add
    by_cases hbot : e.reactorIsBot
    · rw [if_pos hbot]
      exact h
    · rw [if_neg hbot]
      have h₁ := ledgerInv_apply data e.guild e.reactor (some e.reactorName)
        (grantReactorXP cfg) (fun r => by simp [grantReactorXP]) h
      by_cases hcond : e.authorIsBot = false ∧ e.author ≠ e.reactor
      · rw [if_pos hcond]
        exact ledgerInv_apply _ _ _ _ _ (fun r => by simp [grantAuthorXP]) h₁
      · rw [if_neg hcond]
        exact h₁
  · intro cfg presence channels data h
    exact ledgerInv_foldl _
      (fun d gc => ledgerInv_check_voice_channel cfg presence gc.1 gc.2 d) channels
      data h

/-- Witness for C5: the invariant hypotheses discharged on concrete inputs —
an empty ledger trivially satisfies the invariant, and the resulting
ledgers after a message, a reaction and a voice tick satisfy it. -/
theorem C5_witness :
    ledgerInv (on_message DEFAULT_CONFIG [] [] ⟨"g", "a", "A", false, 0⟩).2 ∧
    ledgerInv (on_raw_reaction_add DEFAULT_CONFIG []
      ⟨"g", "b", "B", false, "a", "A", false⟩) ∧
    ledgerInv (check_voice_xp DEFAULT_CONFIG ["g_a", "g_b"]
      [("g", [⟨"a", "A", false, false, false⟩, ⟨"b", "B", false, false, false⟩])]
      []) :=
  have hinv : ledgerInv [] := fun _ _ _ h => nomatch h
  ⟨C5_level_invariant.2.1 DEFAULT_CONFIG [] [] ⟨"g", "a", "A", false, 0⟩ hinv,
   C5_level_invariant.2.2.1 DEFAULT_CONFIG [] ⟨"g", "b", "B", false, "a", "A", false⟩
     hinv,
   C5_level_invariant.2.2.2 DEFAULT_CONFIG ["g_a", "g_b"]
     [("g", [⟨"a", "A", false, false, false⟩, ⟨"b", "B", false, false, false⟩])]
     [] hinv⟩

/-! ### Stable descending sort (Python `sorted(..., reverse=True)`) -/

/-- Stable insertion: `p` goes in front of the first entry whose key value
is strictly smaller, so entries with equal keys keep their original order,
as Python's stable sort does. -/
def insertDescBy (f : String × UserRecord → Nat) (p : String × UserRecord) :
    GuildData → GuildData
  | [] => [p]
  | q :: t => if f q ≤ f p then p :: q :: t else q :: insertDescBy f p t

/-- Stable insertion sort, descending by `f`: the embedding of
`sorted(guild_data.items(), key=..., reverse=True)`. -/
def sortDescBy (f : String × UserRecord → Nat) : GuildData → GuildData
  | [] => []
  | p :: t => insertDescBy f p (sortDescBy f t)

theorem insertDescBy_perm (f : String × UserRecord → Nat)
    (p : String × UserRecord) (l : GuildData) :
    List.Perm (insertDescBy f p l) (p :: l) := by
  induction l with
  | nil => exact List.Perm.refl _
  | cons q t ih =>
    unfold insertDescBy
    by_cases h : f q ≤ f p
    · rw [if_pos h]
    · rw [if_neg h]
      exact (ih.cons q).trans (List.Perm.swap p q t)

theorem sortDescBy_perm (f : String × UserRecord → Nat) (l : GuildData) :
    List.Perm (sortDescBy f l) l := by
  induction l with
  | nil => exact List.Perm.refl _
  | cons p t ih => exact (insertDescBy_perm f p (sortDescBy f t)).trans (ih.cons p)

theorem insertDescBy_pairwise (f : String × UserRecord → Nat)
    (p : String × UserRecord) (l : GuildData)
    (h : List.Pairwise (fun a b => f b ≤ f a) l) :
    List.Pairwise (fun a b => f b ≤ f a) (insertDescBy f p l) := by
  induction l with
  | nil => exact List.pairwise_singleton _ _
  | cons q t ih =>
    rw [List.pairwise_cons] at h
    unfold insertDescBy
    by_cases hqp : f q ≤ f p
    · rw [if_pos hqp]
      refine List.Pairwise.cons ?_ (List.Pairwise.cons h.1 h.2)
      intro b hb
      rcases List.mem_cons.mp hb with rfl | hbt
      · exact hqp
      · exact le_trans (h.1 b hbt) hqp
    · rw [if_neg hqp]
      refine List.Pairwise.cons ?_ (ih h.2)
      intro b hb
      have hb₁ : b ∈ p :: t := (insertDescBy_perm f p t).mem_iff.mp hb
      rcases List.mem_cons.mp hb₁ with rfl | hbt
      · omega
      · exact h.1 b hbt

theorem sortDescBy_pairwise (f : String × UserRecord → Nat) (l : GuildData) :
    List.Pairwise (fun a b => f b ≤ f a) (sortDescBy f l) := by
  induction l with
  | nil => exact List.Pairwise.nil
  | cons p t ih => exact insertDescBy_pairwise f p (sortDescBy f t) ih

/-! ### `rank` (the `!rank` command's position computation) -/

/-- The `!rank` command's position: load the data, run `get_user_data` for
the queried member (creating a fresh record in the in-memory dict if
absent), sort the guild's items by `xp` descending, and return the 1-based
index of the member, with a fallback of 0 when the member is not found.
The command never saves, so the persisted ledger is untouched. -/
def rank_position (data : Ledger) (g u : String) : Nat :=
  let data₁ := get_user_data data g u none
  let guildData := (alLookup data₁ g).getD []
  let sortedUsers := sortDescBy (fun p => p.2.xp) guildData
  match sortedUsers.findIdx? (fun p => p.1 == u) with
  | some i => i + 1
  | none => 0

theorem alLookup_mem {α : Type} (l : List (String × α)) (k : String) (v : α)
    (h : alLookup l k = some v) : (k, v) ∈ l := by
  induction l with
  | nil => cases h
  | cons p t ih =>
    obtain ⟨k₀, v₀⟩ := p
    unfold alLookup at h
    by_cases hk : k₀ = k
    · rw [if_pos hk] at h
      subst hk
      cases h
      exact List.mem_cons_self _ _
    · rw [if_neg hk] at h
      exact List.mem_cons_of_mem _ (ih h)

/-! ### Claim C7 -/

/-- Counterexample to claim C7 as stated: on an empty ledger, user `u` has
no record, yet `rank_position` returns 1, not 0 — `get_user_data` creates
the record before the rank is computed, so the 0 fallback is unreachable. -/
theorem C7_counterexample :
    getUser ([] : Ledger) "g" "u" = none ∧ rank_position [] "g" "u" = 1 :=
  ⟨rfl, rfl⟩

/-- Claim C7 as amended: `rank_position` first ensures the member's record
exists (a fresh zero-XP record is created in the loaded data when absent),
and then returns the 1-based position of the member in the guild's records
sorted by `totalXP` descending (stable, ties keeping insertion order); the
result is that 1-based index and is therefore never 0. -/
theorem C7_rank_is_one_based (data : Ledger) (g u : String) :
    List.Pairwise (fun a b => b.2.xp ≤ a.2.xp)
      (sortDescBy (fun p => p.2.xp)
        ((alLookup (get_user_data data g u none) g).getD [])) ∧
    List.Perm
      (sortDescBy (fun p => p.2.xp)
        ((alLookup (get_user_data data g u none) g).getD []))
      ((alLookup (get_user_data data g u none) g).getD []) ∧
    ∃ i : Nat,
      (sortDescBy (fun p => p.2.xp)
          ((alLookup (get_user_data data g u none) g).getD [])).findIdx?
        (fun p => p.1 == u) = some i ∧
      rank_position data g u = i + 1 ∧
      1 ≤ rank_position data g u := by
  refine ⟨sortDescBy_pairwise _ _, sortDescBy_perm _ _, ?_⟩
  have hmem : (u, ensuredRecord data g u none) ∈
      ((alLookup (get_user_data data g u none) g).getD []) := by
    apply alLookup_mem
    have := getUser_get_user_data data g u none g u
    rw [if_pos ⟨rfl, rfl⟩] at this
    exact this
  have hmem₁ : (u, ensuredRecord data g u none) ∈
      sortDescBy (fun p => p.2.xp)
        ((alLookup (get_user_data data g u none) g).getD []) :=
    (sortDescBy_perm _ _).mem_iff.mpr hmem
  have hex : ∃ x, x ∈ sortDescBy (fun p => p.2.xp)
      ((alLookup (get_user_data data g u none) g).getD []) ∧
      (fun p : String × UserRecord => p.1 == u) x = true :=
    ⟨(u, ensuredRecord data g u none), hmem₁, by simp⟩
  have hi := List.findIdx?_eq_some_of_exists hex
  refine ⟨_, hi, ?_, ?_⟩
  · unfold rank_position
    simp only [hi]
  · unfold rank_position
    simp only [hi]
    omega

/-! ### `leaderboard` (C8) -/

/-- Outcome of the `!leaderboard` command, presentation stripped: the
empty-data reply, the invalid-category reply, or a rendered page
(page number, total pages, entries of user id, stat value and level). -/
inductive LBResult where
  | noData : LBResult
  | invalidCategory : LBResult
  | page : Nat → Nat → List (String × Nat × Nat) → LBResult
  deriving Repr, DecidableEq

/-- `valid_categories`, reduced to the sort key each recognized category
name maps to. -/
def categorySortKey (category : String) : Option String :=
  if category = "xp" then some "xp"
  else if category = "level" then some "level"
  else if category = "messages" then some "messages"
  else if category = "reactions" then some "reactions"
  else if category = "vc" then some "vc_seconds"
  else if category = "vctime" then some "vc_seconds"
  else if category = "voice" then some "vc_seconds"
  else if category = "session" then some "longest_session"
  else if category = "longest" then some "longest_session"
  else none

/-- `x[1].get(sort_key, 0)`: the record field selected by a sort key. -/
def recordField (key : String) (r : UserRecord) : Nat :=
  if key = "xp" then r.xp
  else if key = "level" then r.level
  else if key = "messages" then r.messages
  else if key = "reactions" then r.reactions
  else if key = "vc_seconds" then r.vc_seconds
  else if key = "longest_session" then r.longest_session
  else 0

/-- `!leaderboard`: the ledger is loaded up front; an empty guild is
reported as "no data" before the category is validated; an unrecognized
(lowercased) category is then a validation error; otherwise the records
are sorted descending by the chosen field and one clamped page of ten is
rendered.  The command never saves, so the returned ledger — the persisted
state — is always the input. -/
def leaderboard (data : Ledger) (g : String) (category : String)
    (pageArg : Int) : LBResult × Ledger :=
  let guildData := (alLookup data g).getD []
  if guildData.isEmpty then (LBResult.noData, data)
  else
    match categorySortKey category.toLower with
    | none => (LBResult.invalidCategory, data)
    | some sortKey =>
      let sortedUsers := sortDescBy (fun p => recordField sortKey p.2) guildData
      let perPage := 10
      let totalPages := (sortedUsers.length + perPage - 1) / perPage
      let page := (max 1 (min pageArg (totalPages : Int))).toNat
      let startIdx := (page - 1) * perPage
      let entries := ((sortedUsers.drop startIdx).take perPage).map
        (fun p => (p.1, recordField sortKey p.2, p.2.level))
      (LBResult.page page totalPages entries, data)

/-- Counterexample to claim C8 as stated: with an empty ledger and the
unrecognized metric `bogus`, the command replies with the no-data message,
not the validation error — the ledger is read and the empty-guild check
runs before the metric is validated. -/
theorem C8_counterexample :
    (leaderboard [] "g" "bogus" 1).1 = LBResult.noData ∧
    LBResult.noData ≠ LBResult.invalidCategory :=
  ⟨rfl, by decide⟩

/-- Claim C8 as amended: the command loads the ledger first; when the guild
has records and the metric is unrecognized it returns the validation error;
when the guild has no records it returns the no-data reply regardless of
the metric; in every case the persisted ledger is unchanged. -/
theorem C8_invalid_metric (data : Ledger) (g category : String) (pageArg : Int) :
    (((alLookup data g).getD [] : GuildData) ≠ [] →
      categorySortKey category.toLower = none →
      (leaderboard data g category pageArg).1 = LBResult.invalidCategory) ∧
    (((alLookup data g).getD [] : GuildData) = [] →
      (leaderboard data g category pageArg).1 = LBResult.noData) ∧
    (leaderboard data g category pageArg).2 = data := by
  refine ⟨?_, ?_, ?_⟩
  · intro hne hcat
    unfold leaderboard
    rw [if_neg (by simpa [List.isEmpty_iff] using hne)]
    simp only [hcat]
  · intro hempty
    unfold leaderboard
    rw [if_pos (by simpa [List.isEmpty_iff] using hempty)]
  · unfold leaderboard
    by_cases hempty : ((alLookup data g).getD [] : GuildData).isEmpty
    · rw [if_pos hempty]
    · rw [if_neg hempty]
      cases categorySortKey category.toLower <;> simp

/-- Witness for C8 amended: a one-record guild with the unrecognized metric
`bogus` gets the validation error; an empty guild gets the no-data reply. -/
theorem C8_witness :
    ((((alLookup [("g", [("a", freshRecord (some "A"))])] "g").getD [] :
        GuildData) ≠ []) →
      categorySortKey ("bogus" : String).toLower = none →
      (leaderboard [("g", [("a", freshRecord (some "A"))])] "g" "bogus" 1).1 =
        LBResult.invalidCategory) ∧
    ((((alLookup [("g", [("a", freshRecord (some "A"))])] "g").getD [] :
        GuildData) = []) →
      (leaderboard [("g", [("a", freshRecord (some "A"))])] "g" "bogus" 1).1 =
        LBResult.noData) ∧
    (leaderboard [("g", [("a", freshRecord (some "A"))])] "g" "bogus" 1).2 =
      [("g", [("a", freshRecord (some "A"))])] :=
  C8_invalid_metric [("g", [("a", freshRecord (some "A"))])] "g" "bogus" 1

/-! ### Raw persisted records (C9)

A record as stored in the JSON file, with every field possibly absent.
`longest_session_date` distinguishes an absent key (`none`) from a stored
JSON `null` (`some none`).  `get_user_data` backfills exactly three fields
on an existing record — `vc_partners`, `longest_session` and
`longest_session_date` — and touches nothing else; an operation that reads
another absent field (as `on_message` reads `level`, `xp` and `messages`)
fails with a key error, modelled as `none`. -/

structure RawRecord where
  username : Option String
  xp : Option Nat
  level : Option Nat
  messages : Option Nat
  reactions : Option Nat
  vc_seconds : Option Nat
  vc_partners : Option (List (String × PartnerData))
  longest_session : Option Nat
  longest_session_date : Option (Option String)
  deriving Repr, DecidableEq

abbrev RawGuildData := List (String × RawRecord)

abbrev RawLedger := List (String × RawGuildData)

/-- The raw form of the record `get_user_data` creates for a new user. -/
def rawFreshRecord (un : Option String) : RawRecord :=
  { username := some (un.getD "Unknown")
    xp := some 0
    level := some 1
    messages := some 0
    reactions := some 0
    vc_seconds := some 0
    vc_partners := some []
    longest_session := some 0
    longest_session_date := some none }

/-- What `get_user_data` does to an existing stored record: refresh the
username when one was passed, and ensure `vc_partners`,
`longest_session` and `longest_session_date` exist, defaulting them to the
empty mapping, 0 and `null`.  All other fields are left exactly as
stored. -/
def rawTouchRecord (un : Option String) (r : RawRecord) : RawRecord :=
  let r₁ := match un with
    | some n => { r with username := some n }
    | none => r
  { r₁ with
    vc_partners := some (r₁.vc_partners.getD [])
    longest_session := some (r₁.longest_session.getD 0)
    longest_session_date := some (r₁.longest_session_date.getD none) }

/-- The record `get_user_data` hands back to its caller, raw form. -/
def rawEnsuredRecord (data : RawLedger) (g u : String) (un : Option String) :
    RawRecord :=
  match alLookup ((alLookup data g).getD []) u with
  | some r => rawTouchRecord un r
  | none => rawFreshRecord un

/-- The message-XP mutation on a raw record: `on_message` reads `level`,
then `xp` and `messages`; if any of the three keys is absent the update
raises (returns `none`). -/
def rawGrantMessageXP (cfg : Config) (r : RawRecord) : Option RawRecord :=
  match r.level, r.xp, r.messages with
  | some _, some xp, some ms =>
    some { r with
      xp := some (xp + cfg.xp_per_message)
      messages := some (ms + 1)
      level := some (calculate_level (xp + cfg.xp_per_message)) }
  | _, _, _ => none

/-- The accepted-message path of `on_message` over the raw store: load the
record through `get_user_data`, then apply the XP grant; a key error
aborts the whole operation. -/
def raw_on_message_grant (cfg : Config) (data : RawLedger) (g u : String)
    (un : Option String) : Option RawLedger :=
  let r := rawEnsuredRecord data g u un
  match rawGrantMessageXP cfg r with
  | some r₁ =>
    some (alSet data g (alSet ((alLookup data g).getD []) u r₁))
  | none => none

/-- A stored record whose `xp` key is absent (and `vc_partners` too), as an
older or hand-edited JSON file could contain. -/
def recordMissingXP : RawRecord :=
  { username := some "A"
    xp := none
    level := some 1
    messages := some 0
    reactions := some 0
    vc_seconds := some 0
    vc_partners := none
    longest_session := some 0
    longest_session_date := some none }

/-! ### Claim C9 -/

/-- Counterexample to claim C9 as stated: on a persisted record missing the
`xp` field, loading does not default it to zero — `rawEnsuredRecord` leaves
`xp` absent — and the message-XP operation fails with a key error rather
than proceeding. -/
theorem C9_counterexample :
    (rawEnsuredRecord [("g", [("u", recordMissingXP)])] "g" "u" (some "A")).xp =
      none ∧
    raw_on_message_grant DEFAULT_CONFIG [("g", [("u", recordMissingXP)])]
      "g" "u" (some "A") = none :=
  ⟨rfl, rfl⟩

/-- Claim C9 as amended: on load, exactly `vc_partners`, `longest_session`
and `longest_session_date` are backfilled with their documented defaults
(empty mapping, zero, null) when absent, while `username` (absent a passed
name), `xp`, `level`, `messages`, `reactions` and `vc_seconds` are left
exactly as stored; consequently the message-XP operation fails if and only
if one of the `level`, `xp`, `messages` keys is absent from the loaded
record. -/
theorem C9_partial_defaults :
    (∀ (un : Option String) (r : RawRecord),
      (rawTouchRecord un r).vc_partners = some (r.vc_partners.getD []) ∧
      (rawTouchRecord un r).longest_session = some (r.longest_session.getD 0) ∧
      (rawTouchRecord un r).longest_session_date =
        some (r.longest_session_date.getD none) ∧
      (rawTouchRecord un r).xp = r.xp ∧
      (rawTouchRecord un r).level = r.level ∧
      (rawTouchRecord un r).messages = r.messages ∧
      (rawTouchRecord un r).reactions = r.reactions ∧
      (rawTouchRecord un r).vc_seconds = r.vc_seconds ∧
      (rawTouchRecord none r).username = r.username) ∧
    (∀ (data : RawLedger) (g u : String) (un : Option String),
      rawEnsuredRecord data g u un =
        match alLookup ((alLookup data g).getD []) u with
        | some r => rawTouchRecord un r
        | none => rawFreshRecord un) ∧
    (∀ (cfg : Config) (r : RawRecord),
      rawGrantMessageXP cfg r = none ↔
        (r.level = none ∨ r.xp = none ∨ r.messages = none)) := by
  refine ⟨?_, fun data g u un => rfl, ?_⟩
  · intro un r
    cases un <;>
      exact ⟨rfl, rfl, rfl, rfl, rfl, rfl, rfl, rfl, rfl⟩
  · intro cfg r
    unfold rawGrantMessageXP
    cases hl : r.level <;> cases hx : r.xp <;> cases hm : r.messages <;>
      simp

end SCDB
